import Mathlib

/-!
Verification of the Content-Creator delivery pipeline.

The definitions below are shallow embeddings of the TypeScript sources:
`server/constants/slides.ts`, `server/utils/url-validator.ts`,
`server/utils/token-manager.ts`, `server/middleware/rate-limit.ts` and
`server/presentation.ts`.  JavaScript truthiness on optional strings and
arrays is modelled explicitly (`undefined` and `""` are falsy; an array is
truthy but guarded by `length > 0` where the source checks it), machine
times are integers in milliseconds, and fallible code returns `Except`.
-/

namespace ContentCreator

/-! ## Constants (server/constants/slides.ts) -/

def GOOGLE_API_BATCH_SIZE : Nat := 100

def MAX_REQUESTS_PER_SLIDE : Nat := 10

def TITLE_BOX_WIDTH_EMU : Nat := 8000000

def TITLE_BOX_HEIGHT_EMU : Nat := 700000

def SUBTITLE_BOX_HEIGHT_EMU : Nat := 500000

def CONTENT_BOX_WIDTH_EMU : Nat := 8000000

def CONTENT_BOX_HEIGHT_EMU : Nat := 3000000

def BULLET_BOX_HEIGHT_EMU : Nat := 3000000

def QUESTIONS_BOX_HEIGHT_EMU : Nat := 3500000

def TITLE_POSITION_X_EMU : Nat := 500000

def TITLE_POSITION_Y_EMU : Nat := 500000

def SUBTITLE_POSITION_Y_EMU : Nat := 1500000

def CONTENT_POSITION_WITH_TITLE_Y_EMU : Nat := 1500000

def CONTENT_POSITION_NO_TITLE_Y_EMU : Nat := 800000

def DEFAULT_IMAGE_WIDTH_EMU : Nat := 4000000

def DEFAULT_IMAGE_HEIGHT_EMU : Nat := 3000000

def IMAGE_POSITION_X_EMU : Nat := 2500000

def IMAGE_POSITION_Y_EMU : Nat := 1500000

def FONT_SIZE_TITLE_PT : Nat := 36

def FONT_SIZE_SUBTITLE_PT : Nat := 20

def FONT_SIZE_BODY_PT : Nat := 16

def FONT_SIZE_BULLETS_PT : Nat := 18

def FONT_SIZE_QUESTIONS_PT : Nat := 16

/-- RGB colour with channels in hundredths (the source stores reals in
[0,1] with two decimal places; they are inert payload, never computed
with). -/
structure Rgb where
  red : Nat
  green : Nat
  blue : Nat
deriving DecidableEq, Repr

structure ThemeColors where
  primary : Rgb
  secondary : Rgb
  accent : Rgb
deriving DecidableEq, Repr

inductive ColorTheme where
  | blue | green | purple | orange | teal | red
deriving DecidableEq, Repr

/-- COLOR_THEMES from server/constants/slides.ts (channels in hundredths). -/
def COLOR_THEMES : ColorTheme → ThemeColors
  | .blue => ⟨⟨26, 52, 96⟩, ⟨13, 33, 63⟩, ⟨85, 92, 99⟩⟩
  | .green => ⟨⟨13, 59, 53⟩, ⟨9, 39, 35⟩, ⟨84, 95, 93⟩⟩
  | .purple => ⟨⟨61, 35, 71⟩, ⟨41, 21, 51⟩, ⟨95, 89, 97⟩⟩
  | .orange => ⟨⟨95, 61, 7⟩, ⟨76, 44, 5⟩, ⟨100, 95, 85⟩⟩
  | .teal => ⟨⟨11, 66, 71⟩, ⟨7, 47, 51⟩, ⟨83, 96, 97⟩⟩
  | .red => ⟨⟨91, 30, 24⟩, ⟨64, 17, 13⟩, ⟨99, 90, 89⟩⟩

def TRUSTED_IMAGE_DOMAINS : List String :=
  ["images.unsplash.com", "unsplash.com", "plus.unsplash.com",
   "cdn.openai.com", "oaidalleapiprodscus.blob.core.windows.net",
   "puter.com", "api.puter.com", "storage.googleapis.com",
   "drive.google.com"]

/-! ## Data model (SlideContent, presentation.ts) -/

inductive SlideType where
  | title | content | image | questions
deriving DecidableEq, Repr

/-- SlideContent from server/presentation.ts.  Optional fields are
`Option`; `none` is JavaScript `undefined`. -/
structure SlideContent where
  type : SlideType
  title : Option String := none
  subtitle : Option String := none
  text : Option String := none
  bulletPoints : Option (List String) := none
  imageUrl : Option String := none
  imageAlt : Option String := none
  imageAttribution : Option String := none
  questions : Option (List String) := none
  notes : Option String := none
deriving DecidableEq, Repr

/-- JavaScript truthiness of an optional string: `undefined` and `""` are
falsy. -/
def strTruthy : Option String → Bool
  | none => false
  | some s => !(s == "")

/-- The source guards optional arrays with `xs && xs.length > 0`. -/
def listTruthy : Option (List String) → Bool
  | none => false
  | some l => !l.isEmpty

/-- Error taxonomy from server/errors/presentation-errors.ts (the members
exercised by the embedded pipeline). -/
inductive PresError where
  | invalidImageUrl (url : String)
  | untrustedImageDomain (url : String)
  | batchSizeExceeded (slideIndex requestCount : Nat)
  | imageInsertion (slideIndex : Nat) (url : String)
  | speakerNotes (slideIndex : Nat)
  | tokenRefresh
deriving DecidableEq, Repr

/-! ## validateSlideContent (presentation.ts lines 131-147) -/

/-- The per-slide request-count estimate computed by
`validateSlideContent`: 1 for `createSlide`, +3 for each truthy text-like
field, +1 for an image, +1 for notes. -/
def slideRequestEstimate (c : SlideContent) : Nat :=
  1
  + (if strTruthy c.title then 3 else 0)
  + (if strTruthy c.subtitle then 3 else 0)
  + (if strTruthy c.text then 3 else 0)
  + (if listTruthy c.bulletPoints then 3 else 0)
  + (if listTruthy c.questions then 3 else 0)
  + (if strTruthy c.imageUrl then 1 else 0)
  + (if strTruthy c.notes then 1 else 0)

def validateSlideContentAux : Nat → List SlideContent → Except PresError Unit
  | _, [] => .ok ()
  | i, c :: rest =>
    if slideRequestEstimate c > MAX_REQUESTS_PER_SLIDE * 2 then
      .error (.batchSizeExceeded i (slideRequestEstimate c))
    else
      validateSlideContentAux (i + 1) rest

/-- validateSlideContent: throws `BatchSizeExceededError` for the first
slide whose estimate exceeds `MAX_REQUESTS_PER_SLIDE * 2`. -/
def validateSlideContent (l : List SlideContent) : Except PresError Unit :=
  validateSlideContentAux 0 l

/-! ## URL model and validator (server/utils/url-validator.ts)

The source relies on the platform `URL` class.  It is modelled here by a
small parser over `scheme "://" host path`: the scheme must be a nonempty
run of lowercase letters, the host is the nonempty run up to the first
`/`, and an empty path normalizes to `/` (as the platform class does).
Case-normalization of scheme and host by the platform class is not
modelled; `isUrlTrusted` lowercases the hostname explicitly exactly as
the source does. -/

/-- Leading- and trailing-whitespace removal (JavaScript
`String.prototype.trim`), modelled structurally on the character
list. -/
def trimChars (l : List Char) : List Char :=
  ((l.dropWhile Char.isWhitespace).reverse.dropWhile
    Char.isWhitespace).reverse

def jsTrim (s : String) : String :=
  ⟨trimChars s.toList⟩

structure UrlParts where
  scheme : List Char
  host : List Char
  path : List Char
deriving DecidableEq, Repr

def isLowerAlpha (c : Char) : Bool :=
  ('a' ≤ c) && (c ≤ 'z')

/-- Split a character list at the first colon (the scheme delimiter of a
URL); fails when no colon occurs. -/
def splitAtColon : List Char → Option (List Char × List Char)
  | [] => none
  | c :: rest =>
    if c = ':' then some ([], rest)
    else (splitAtColon rest).map (fun p => (c :: p.1, p.2))

def parseUrlChars (l : List Char) : Option UrlParts :=
  match splitAtColon l with
  | none => none
  | some (scheme, rest) =>
    if scheme = [] || !scheme.all isLowerAlpha then none
    else
      match rest with
      | '/' :: '/' :: afterSlashes =>
        if afterSlashes.takeWhile (fun c => c ≠ '/') = [] then none
        else some ⟨scheme, afterSlashes.takeWhile (fun c => c ≠ '/'),
          if afterSlashes.dropWhile (fun c => c ≠ '/') = [] then ['/']
          else afterSlashes.dropWhile (fun c => c ≠ '/')⟩
      | _ => none

def parseUrl (s : String) : Option UrlParts :=
  parseUrlChars s.toList

def hrefChars (u : UrlParts) : List Char :=
  u.scheme ++ ':' :: '/' :: '/' :: u.host ++ u.path

/-- The `href` of a parsed URL. -/
def href (u : UrlParts) : String :=
  ⟨hrefChars u⟩

def charsLower (l : List Char) : List Char :=
  l.map Char.toLower

/-- Hostname allow-list check of `isUrlTrusted`: the lowercased hostname
equals a trusted domain or ends with `"." + domain`. -/
def trustedHost (host : List Char) : Bool :=
  TRUSTED_IMAGE_DOMAINS.any fun domain =>
    let h := charsLower host
    let d := charsLower domain.toList
    h == d || ('.' :: d).isSuffixOf h

/-- isUrlTrusted from url-validator.ts: parse the URL, lowercase the
hostname, and compare against `TRUSTED_IMAGE_DOMAINS`; a parse failure
returns false. -/
def isUrlTrusted (url : String) : Bool :=
  match parseUrl url with
  | none => false
  | some u => trustedHost u.host

/-- validateImageUrl from url-validator.ts: falsy input passes through as
`undefined`; a malformed URL or a non-http(s) scheme raises
`InvalidImageUrlError`; `http` upgrades to `https`; unless
`allowUntrusted`, a hostname outside the allow-list raises
`UntrustedImageDomainError`; otherwise the normalized href is
returned. -/
def validateImageUrl (url : Option String) (allowUntrusted : Bool) :
    Except PresError (Option String) :=
  match url with
  | none => .ok none
  | some raw =>
    let trimmed := jsTrim raw
    if trimmed = "" then .ok none
    else
      match parseUrl trimmed with
      | none => .error (.invalidImageUrl trimmed)
      | some u =>
        if !(u.scheme = "http".toList || u.scheme = "https".toList) then
          .error (.invalidImageUrl trimmed)
        else
          let u' := if u.scheme = "http".toList then
            { u with scheme := "https".toList } else u
          if !allowUntrusted && !isUrlTrusted (href u') then
            .error (.untrustedImageDomain (href u'))
          else
            .ok (some (href u'))

/-! ## Request compiler (createSlideRequests, presentation.ts 179-449) -/

/-- Google Slides batchUpdate operations emitted by the compiler.
Constant payload shared by every occurrence (`unit: EMU/PT`,
`scaleX/scaleY = 1`, the `rgbColor` wrapper) is kept implicit; variable
payload is explicit. -/
inductive SlideRequest where
  | createSlide (objectId : String) (insertionIndex : Nat) (layout : String)
  | createShape (objectId : String) (shapeType : String)
      (pageObjectId : String)
      (heightEmu widthEmu translateX translateY : Nat)
  | insertText (objectId : String) (text : String)
  | updateTextStyle (objectId : String) (fontSizePt : Nat) (bold : Bool)
      (foregroundColor : Option Rgb) (fields : String)
  | createImage (url : String) (pageObjectId : String)
      (heightEmu widthEmu translateX translateY : Nat)
  | deleteObject (objectId : String)
deriving DecidableEq, Repr

/-- The caller-assigned object id of a request (`createImage` carries
none in the source). -/
def reqObjectId : SlideRequest → Option String
  | .createSlide oid _ _ => some oid
  | .createShape oid _ _ _ _ _ _ => some oid
  | .insertText oid _ => some oid
  | .updateTextStyle oid _ _ _ _ => some oid
  | .createImage _ _ _ _ _ _ => none
  | .deleteObject oid => some oid

/-- createSlideRequests from presentation.ts.  The try/catch around the
image block guards list pushes that cannot throw, so the function is
total.  Field presence uses JavaScript truthiness exactly as the source
checks it. -/
def createSlideRequests (content : SlideContent) (index : Nat)
    (colorTheme : Option ColorTheme) : List SlideRequest :=
  let slideId := "slide_" ++ toString index
  let theme := colorTheme.map COLOR_THEMES
  [SlideRequest.createSlide slideId index "BLANK"]
  ++ (if strTruthy content.title then
      let titleBoxId := "title_" ++ toString index
      [SlideRequest.createShape titleBoxId "TEXT_BOX" slideId
          TITLE_BOX_HEIGHT_EMU TITLE_BOX_WIDTH_EMU
          TITLE_POSITION_X_EMU TITLE_POSITION_Y_EMU,
        SlideRequest.insertText titleBoxId (content.title.getD ""),
        SlideRequest.updateTextStyle titleBoxId FONT_SIZE_TITLE_PT true
          (theme.map (·.primary))
          (if theme.isSome then "fontSize,bold,foregroundColor"
            else "fontSize,bold")]
    else [])
  ++ (if strTruthy content.subtitle then
      let subtitleBoxId := "subtitle_" ++ toString index
      [SlideRequest.createShape subtitleBoxId "TEXT_BOX" slideId
          SUBTITLE_BOX_HEIGHT_EMU TITLE_BOX_WIDTH_EMU
          TITLE_POSITION_X_EMU SUBTITLE_POSITION_Y_EMU,
        SlideRequest.insertText subtitleBoxId (content.subtitle.getD ""),
        SlideRequest.updateTextStyle subtitleBoxId FONT_SIZE_SUBTITLE_PT
          false (theme.map (·.secondary))
          (if theme.isSome then "fontSize,foregroundColor" else "fontSize")]
    else [])
  ++ (if strTruthy content.text then
      let textBoxId := "text_" ++ toString index
      let yPosition := if strTruthy content.title then
        CONTENT_POSITION_WITH_TITLE_Y_EMU else CONTENT_POSITION_NO_TITLE_Y_EMU
      [SlideRequest.createShape textBoxId "TEXT_BOX" slideId
          CONTENT_BOX_HEIGHT_EMU CONTENT_BOX_WIDTH_EMU
          TITLE_POSITION_X_EMU yPosition,
        SlideRequest.insertText textBoxId (content.text.getD ""),
        SlideRequest.updateTextStyle textBoxId FONT_SIZE_BODY_PT false
          none "fontSize"]
    else [])
  ++ (if listTruthy content.bulletPoints then
      let bulletBoxId := "bullets_" ++ toString index
      let yPosition := if strTruthy content.title then
        CONTENT_POSITION_WITH_TITLE_Y_EMU else CONTENT_POSITION_NO_TITLE_Y_EMU
      let bulletText := String.intercalate "\n"
        ((content.bulletPoints.getD []).map (fun point => "â€¢ " ++ point))
      [SlideRequest.createShape bulletBoxId "TEXT_BOX" slideId
          BULLET_BOX_HEIGHT_EMU CONTENT_BOX_WIDTH_EMU
          TITLE_POSITION_X_EMU yPosition,
        SlideRequest.insertText bulletBoxId bulletText,
        SlideRequest.updateTextStyle bulletBoxId FONT_SIZE_BULLETS_PT false
          none "fontSize"]
    else [])
  ++ (if listTruthy content.questions then
      let questionsBoxId := "questions_" ++ toString index
      let yPosition := if strTruthy content.title then
        CONTENT_POSITION_WITH_TITLE_Y_EMU else CONTENT_POSITION_NO_TITLE_Y_EMU
      let questionsText := String.intercalate "\n\n"
        (((content.questions.getD []).enum.map
          (fun p => toString (p.1 + 1) ++ ". " ++ p.2)))
      [SlideRequest.createShape questionsBoxId "TEXT_BOX" slideId
          QUESTIONS_BOX_HEIGHT_EMU CONTENT_BOX_WIDTH_EMU
          TITLE_POSITION_X_EMU yPosition,
        SlideRequest.insertText questionsBoxId questionsText,
        SlideRequest.updateTextStyle questionsBoxId FONT_SIZE_QUESTIONS_PT
          false none "fontSize"]
    else [])
  ++ (if strTruthy content.imageUrl then
      [SlideRequest.createImage (content.imageUrl.getD "") slideId
          DEFAULT_IMAGE_HEIGHT_EMU DEFAULT_IMAGE_WIDTH_EMU
          IMAGE_POSITION_X_EMU IMAGE_POSITION_Y_EMU]
    else [])

/-! ## validateSlideImages (presentation.ts 152-174) -/

/-- The body of the map in validateSlideImages: a falsy `imageUrl`
passes the slide through unchanged; a validation failure removes the
image but keeps the slide (the failure is only logged to the console);
otherwise the image URL is replaced by its normalized form. -/
def sanitizeSlideImage (allowUntrusted : Bool)
    (slide : SlideContent) : SlideContent :=
  if !strTruthy slide.imageUrl then slide
  else
    match validateImageUrl slide.imageUrl allowUntrusted with
    | .ok v => { slide with imageUrl := v }
    | .error _ => { slide with imageUrl := none }

/-- validateSlideImages from presentation.ts.  The slide index is used
by the source only in console messages. -/
def validateSlideImages (slideContents : List SlideContent)
    (allowUntrusted : Bool) : List SlideContent :=
  slideContents.map (sanitizeSlideImage allowUntrusted)

/-! ## Batch execution engine (addSlidesToPresentation, presentation.ts
454-542) -/

/-- Per-slide compilation loop of addSlidesToPresentation.  The source
wraps each `createSlideRequests` call in try/catch, pushing the index to
`failedSlides` and a message to `warnings` on a throw; since
`createSlideRequests` cannot throw, the catch never fires and the
accumulators stay empty. -/
def compileSlidesAux (colorTheme : Option ColorTheme) (i : Nat) :
    List SlideContent → List SlideRequest × List Nat × List String
  | [] => ([], [], [])
  | c :: rest =>
    let reqs := createSlideRequests c i colorTheme
    let tail := compileSlidesAux colorTheme (i + 1) rest
    (reqs ++ tail.1, tail.2.1, tail.2.2)

def compileSlides (slides : List SlideContent)
    (colorTheme : Option ColorTheme) :
    List SlideRequest × List Nat × List String :=
  compileSlidesAux colorTheme 0 slides

/-- The batching loop `for (i = 0; i < all.length; i += BATCH_SIZE)`:
consecutive chunks of at most `GOOGLE_API_BATCH_SIZE` requests. -/
def chunksAux {α : Type} (cap : Nat) (cur : List α) :
    List α → List (List α)
  | [] => if cur.isEmpty then [] else [cur.reverse]
  | a :: rest =>
    match cap with
    | 0 => cur.reverse :: chunksAux (GOOGLE_API_BATCH_SIZE - 1) [a] rest
    | m + 1 => chunksAux m (a :: cur) rest

def sliceChunks {α : Type} (l : List α) : List (List α) :=
  chunksAux GOOGLE_API_BATCH_SIZE [] l

/-- The sequential batch-submission loop: every batch is submitted in
order; a failing submission appends one warning for that batch index and
the loop continues.  Returns the local success counter, the warnings,
and the list of submitted batches.  (The local counter is shadowed by
the slide-based count in the function's return value.) -/
def runBatchesAux (batchFails : Nat → Bool) (i : Nat) :
    List (List SlideRequest) →
      Nat × List String × List (List SlideRequest)
  | [] => (0, [], [])
  | b :: rest =>
    let tail := runBatchesAux batchFails (i + 1) rest
    if batchFails i then
      (tail.1, ("Batch " ++ toString i ++ " failed") :: tail.2.1, b :: tail.2.2)
    else
      (tail.1 + 1, tail.2.1, b :: tail.2.2)

def runBatches (batches : List (List SlideRequest))
    (batchFails : Nat → Bool) :
    Nat × List String × List (List SlideRequest) :=
  runBatchesAux batchFails 0 batches

/-- The best-effort speaker-notes loop (presentation.ts 525-536): for
each slide with truthy notes, attempt the insertion; a failure appends a
warning and nothing else.  Success or failure of the remote insertion is
an external event, modelled by `notesFails`. -/
def notesWarningsAux (notesFails : Nat → Bool) (i : Nat) :
    List SlideContent → List String
  | [] => []
  | c :: rest =>
    let ws := notesWarningsAux notesFails (i + 1) rest
    if strTruthy c.notes && notesFails i then
      ("Slide " ++ toString i ++ ": Speaker notes could not be added") :: ws
    else ws

def notesWarnings (slides : List SlideContent) (notesFails : Nat → Bool) :
    List String :=
  notesWarningsAux notesFails 0 slides

/-- Execution outcome of addSlidesToPresentation. -/
structure SlidesOutcome where
  successCount : Nat
  failedSlides : List Nat
  warnings : List String
deriving DecidableEq, Repr

/-- addSlidesToPresentation, post-authentication: validate batch sizes
(an oversized slide throws and aborts the run), sanitize image URLs,
prepend a deletion of the pre-existing first slide when present, compile
every slide, submit the requests in batches of `GOOGLE_API_BATCH_SIZE`,
then best-effort speaker notes.  External behavior (the deck's first
slide id, batch-submission failures, notes-insertion failures) enters as
parameters. -/
def addSlidesToPresentation (slideContents : List SlideContent)
    (allowUntrusted : Bool) (colorTheme : Option ColorTheme)
    (firstSlideId : Option String) (batchFails notesFails : Nat → Bool) :
    Except PresError SlidesOutcome := do
  let _ ← validateSlideContent slideContents
  let validatedSlides := validateSlideImages slideContents allowUntrusted
  let deleteReqs := match firstSlideId with
    | some oid => [SlideRequest.deleteObject oid]
    | none => []
  let comp := compileSlides validatedSlides colorTheme
  let allRequests := deleteReqs ++ comp.1
  let batches := sliceChunks allRequests
  let batchRun := runBatches batches batchFails
  let noteWarnings := notesWarnings validatedSlides notesFails
  pure {
    successCount := validatedSlides.length - comp.2.1.length,
    failedSlides := comp.2.1,
    warnings := comp.2.2 ++ batchRun.2.1 ++ noteWarnings }

/-- Three copies of an object id — each present text-like field emits
`createShape`, `insertText` and `updateTextStyle` on the same box. -/
def rep3 (s : String) : List String := [s, s, s]

/-- Object identifiers as the spec describes them: derived only from the
slide index and the kind of each present field (`slide_i`, `title_i`,
`subtitle_i`, `text_i`, `bullets_i`, `questions_i`; the image operation
carries no caller-assigned id). -/
def idsFromIndexAndKind (i : Nat) (t st tx bl q : Bool) : List String :=
  ["slide_" ++ toString i]
  ++ (if t then rep3 ("title_" ++ toString i) else [])
  ++ (if st then rep3 ("subtitle_" ++ toString i) else [])
  ++ (if tx then rep3 ("text_" ++ toString i) else [])
  ++ (if bl then rep3 ("bullets_" ++ toString i) else [])
  ++ (if q then rep3 ("questions_" ++ toString i) else [])

/-- Chunk lengths produced by `chunksAux`, computed from lengths
alone. -/
def lengthChunksAux : Nat → Nat → Nat → List Nat
  | _, cur, 0 => if cur = 0 then [] else [cur]
  | cap, cur, Nat.succ n =>
    match cap with
    | 0 => cur :: lengthChunksAux (GOOGLE_API_BATCH_SIZE - 1) 1 n
    | m + 1 => lengthChunksAux m (cur + 1) n

/-! ## Rate limiter (server/middleware/rate-limit.ts) -/

/-- A rate-window record for one `(bucket, identity)` key: request count
and the window reset time in milliseconds. -/
structure RateRecord where
  count : Nat
  resetTime : Int
deriving DecidableEq, Repr

inductive AdmitDecision where
  | next
  | reject (status : Nat) (retryAfter : Int)
deriving DecidableEq, Repr

/-- `Math.ceil(d / 1000)` on integer milliseconds. -/
def jsCeilDiv1000 (d : Int) : Int :=
  -((-d).ediv 1000)

/-- One call through the middleware for a fixed key: a missing or
expired (`resetTime < now`) record is replaced by a fresh one with count
0 and `resetTime = now + windowSeconds*1000`; the count is incremented;
a count above `maxRequests` is rejected with HTTP 429 and
`retryAfter = ceil((resetTime - now)/1000)` seconds. -/
def rateLimitStep (store : Option RateRecord) (now : Int)
    (maxRequests windowSeconds : Nat) : RateRecord × AdmitDecision :=
  let windowMs : Int := (windowSeconds : Int) * 1000
  let r0 : RateRecord := match store with
    | some r => if r.resetTime < now then ⟨0, now + windowMs⟩ else r
    | none => ⟨0, now + windowMs⟩
  let r1 : RateRecord := ⟨r0.count + 1, r0.resetTime⟩
  if r1.count > maxRequests then
    (r1, .reject 429 (jsCeilDiv1000 (r1.resetTime - now)))
  else
    (r1, .next)

/-- A sequence of calls for one key at the given times, threading the
stored record; returns the final record and the decision of each
call. -/
def runCalls (maxRequests windowSeconds : Nat) :
    Option RateRecord → List Int → Option RateRecord × List AdmitDecision
  | store, [] => (store, [])
  | store, t :: ts =>
    let (r, d) := rateLimitStep store t maxRequests windowSeconds
    let (fin, ds) := runCalls maxRequests windowSeconds (some r) ts
    (fin, d :: ds)

/-! ## Credential lifecycle manager (token-manager.ts, presentation.ts
getOAuth2Client)

`refreshGoogleToken` single-flights refreshes through a process-wide
promise map.  The scheduling model is the source's: single-threaded
cooperative concurrency, interleaving only at awaits.  Each caller runs
`getOAuth2Client` for the same principal, holding the snapshot
credential (`oldToken`, `oldExpiry`); the shared store starts with the
same credential.  Refresh `k` obtains token `newTok k` with expiry
`newExp k` from the provider (the success path; a provider failure
rejects all waiters and is not exercised by the claim).  Each await is a
separate action; everything between two awaits is one atomic step — in
particular, the lock check, the start of the provider call, and the
setting of the lock entry happen in one synchronous block. -/

def REFRESH_MARGIN_MS : Int := 5 * 60 * 1000

/-- needsTokenRefresh from token-manager.ts: a missing expiry never
refreshes; otherwise refresh when the expiry is at most five minutes
after `now`. -/
def needsTokenRefresh (tokenExpiry : Option Int) (now : Int) : Bool :=
  match tokenExpiry with
  | none => false
  | some e => e ≤ now + REFRESH_MARGIN_MS

/-- Progress of the in-flight refresh task (the async IIFE of
`refreshGoogleToken`): awaiting the provider, awaiting the storage
write, or about to run the `finally` block and settle the promise. -/
inductive TaskPhase where
  | awaitingProvider
  | awaitingPersist
  | resolving
deriving DecidableEq, Repr

/-- Progress of one caller of `getOAuth2Client`: not yet run, awaiting
the promise of refresh `k`, awaiting the `getProfileById` re-fetch, or
returned with the observed access token. -/
inductive CallerPhase where
  | start
  | waitRefresh (k : Nat)
  | refetch
  | done (token : Nat)
deriving DecidableEq, Repr

/-- Shared state: the credential store, the (at most one per principal)
refresh-lock slot with its task phase, the number of settled refreshes,
the number of provider refresh calls started, the callers, and a
monotone clock. -/
structure SFCfg where
  storeToken : Nat
  storeExpiry : Int
  task : Option TaskPhase
  finished : Nat
  providerCalls : Nat
  callers : List CallerPhase
  clock : Int
deriving DecidableEq, Repr

/-- Scheduler actions: `start i now` runs caller `i`'s synchronous
prefix at time `now`; `provider`, `persist`, `finish` advance the
in-flight refresh task; `resume i` wakes caller `i` whose awaited
promise has settled; `refetch i` completes caller `i`'s
`getProfileById`. -/
inductive SFAct where
  | start (i : Nat) (now : Int)
  | provider
  | persist
  | finish
  | resume (i : Nat)
  | refetch (i : Nat)
deriving DecidableEq, Repr

/-- One cooperative step.  `start`: needsTokenRefresh on the caller's
snapshot; if false the snapshot credential is returned unchanged; if a
lock entry exists the caller awaits it; otherwise the provider call is
started, the lock entry is created, and the caller awaits its own
promise — all in one synchronous block, as in the source.  `persist`
writes the refreshed credential to the store; `finish` runs the
`finally` (deleting the lock entry) and settles the promise.  Resumed
callers re-fetch the profile and observe the store's current token. -/
def sfStep (oldToken : Nat) (oldExpiry : Int) (newTok : Nat → Nat)
    (newExp : Nat → Int) (s : SFCfg) : SFAct → Option SFCfg
  | .start i now =>
    if now < s.clock then none
    else
      match s.callers.get? i with
      | some .start =>
        if needsTokenRefresh (some oldExpiry) now then
          match s.task with
          | some _ => some { s with
              clock := now,
              callers := s.callers.set i (.waitRefresh s.finished) }
          | none => some { s with
              clock := now,
              task := some .awaitingProvider,
              providerCalls := s.providerCalls + 1,
              callers := s.callers.set i (.waitRefresh s.finished) }
        else
          some { s with
            clock := now,
            callers := s.callers.set i (.done oldToken) }
      | _ => none
  | .provider =>
    match s.task with
    | some .awaitingProvider => some { s with task := some .awaitingPersist }
    | _ => none
  | .persist =>
    match s.task with
    | some .awaitingPersist => some { s with
        task := some .resolving,
        storeToken := newTok s.finished,
        storeExpiry := newExp s.finished }
    | _ => none
  | .finish =>
    match s.task with
    | some .resolving => some { s with
        task := none,
        finished := s.finished + 1 }
    | _ => none
  | .resume i =>
    match s.callers.get? i with
    | some (.waitRefresh k) =>
      if k < s.finished then
        some { s with callers := s.callers.set i .refetch }
      else none
    | _ => none
  | .refetch i =>
    match s.callers.get? i with
    | some .refetch =>
      some { s with callers := s.callers.set i (.done s.storeToken) }
    | _ => none

def sfRun (oldToken : Nat) (oldExpiry : Int) (newTok : Nat → Nat)
    (newExp : Nat → Int) : SFCfg → List SFAct → Option SFCfg
  | s, [] => some s
  | s, a :: acts =>
    match sfStep oldToken oldExpiry newTok newExp s a with
    | some s' => sfRun oldToken oldExpiry newTok newExp s' acts
    | none => none

/-- Initial state: the store holds the snapshot credential, no refresh
is in flight, and `n` callers are about to run. -/
def sfInit (oldToken : Nat) (oldExpiry t0 : Int) (n : Nat) : SFCfg :=
  ⟨oldToken, oldExpiry, none, 0, 0, List.replicate n .start, t0⟩

def isStartAct : SFAct → Bool
  | .start _ _ => true
  | _ => false

/-- Every caller's synchronous prefix runs before the first refresh
settles: after the first `finish` action no `start` action occurs. -/
def startsBeforeFirstFinish : List SFAct → Bool
  | [] => true
  | .finish :: rest => rest.all (fun a => !isStartAct a)
  | _ :: rest => startsBeforeFirstFinish rest

/-- Inductive invariant of the single-flight scenario when no caller
starts after the first refresh settles. -/
def SFInv (oldToken : Nat) (oldExpiry t0 : Int) (newTok : Nat → Nat)
    (newExp : Nat → Int) (n : Nat) (s : SFCfg) : Prop :=
  t0 ≤ s.clock ∧
  s.finished ≤ 1 ∧
  s.providerCalls = s.finished + (if s.task.isSome then 1 else 0) ∧
  (s.task.isSome → s.finished = 0) ∧
  ((s.storeToken, s.storeExpiry) =
    if s.finished = 1 ∨ s.task = some .resolving then (newTok 0, newExp 0)
    else (oldToken, oldExpiry)) ∧
  s.callers.length = n ∧
  (∀ c ∈ s.callers, c = .start ∨ c = .waitRefresh 0 ∨
    (c = .refetch ∧ s.finished = 1) ∨
    (c = .done (newTok 0) ∧ s.finished = 1))

/-! ## Lemmas and claim theorems -/

theorem slideRequestEstimate_le (c : SlideContent) :
    slideRequestEstimate c ≤ 18 := by
  unfold slideRequestEstimate
  split_ifs <;> omega

theorem validateSlideContentAux_ok (i : Nat) (l : List SlideContent) :
    validateSlideContentAux i l = .ok () := by
  induction l generalizing i with
  | nil => rfl
  | cons c rest ih =>
    have h := slideRequestEstimate_le c
    simp only [validateSlideContentAux, MAX_REQUESTS_PER_SLIDE]
    rw [if_neg (by omega)]
    exact ih (i + 1)

theorem validateSlideContent_ok (l : List SlideContent) :
    validateSlideContent l = .ok () :=
  validateSlideContentAux_ok 0 l

/-- C10: for every possible SlideContent the per-slide operation
estimate of validateSlideContent is at most 18, which never exceeds
`2 × MAX_REQUESTS_PER_SLIDE = 20`, so the BatchSizeExceededError branch
is unreachable and validateSlideContent never throws for any input. -/
theorem claim10_estimate_bound :
    (∀ c : SlideContent, slideRequestEstimate c ≤ 18)
    ∧ MAX_REQUESTS_PER_SLIDE * 2 = 20
    ∧ (∀ c : SlideContent,
        slideRequestEstimate c ≤ MAX_REQUESTS_PER_SLIDE * 2)
    ∧ (∀ l : List SlideContent, validateSlideContent l = .ok ()) :=
  ⟨slideRequestEstimate_le, rfl,
    fun c => le_trans (slideRequestEstimate_le c) (by norm_num [MAX_REQUESTS_PER_SLIDE]),
    validateSlideContent_ok⟩

theorem jsCeilDiv1000_pos {d : Int} (h : 0 < d) : 0 < jsCeilDiv1000 d := by
  unfold jsCeilDiv1000
  have : (-d).ediv 1000 < 0 := Int.ediv_neg' (by omega) (by norm_num)
  omega

theorem jsCeilDiv1000_nonneg {d : Int} (h : 0 ≤ d) :
    0 ≤ jsCeilDiv1000 d := by
  rcases lt_or_eq_of_le h with hlt | heq
  · exact le_of_lt (jsCeilDiv1000_pos hlt)
  · rw [← heq]
    decide

theorem rateLimitStep_active (M W : Nat) (r : RateRecord) (now : Int)
    (h : ¬ r.resetTime < now) :
    rateLimitStep (some r) now M W =
      (⟨r.count + 1, r.resetTime⟩,
        if r.count + 1 > M then
          .reject 429 (jsCeilDiv1000 (r.resetTime - now)) else .next) := by
  simp only [rateLimitStep, if_neg h]
  split_ifs <;> rfl

theorem rateLimitStep_fresh (M W : Nat) (now : Int) :
    rateLimitStep none now M W =
      (⟨1, now + (W : Int) * 1000⟩,
        if 1 > M then
          .reject 429 (jsCeilDiv1000 (now + (W : Int) * 1000 - now))
        else .next) := by
  simp only [rateLimitStep]
  norm_num
  split_ifs <;> rfl

theorem rateLimitStep_expired (M W : Nat) (r : RateRecord) (now : Int)
    (h : r.resetTime < now) :
    rateLimitStep (some r) now M W =
      (⟨1, now + (W : Int) * 1000⟩,
        if 1 > M then
          .reject 429 (jsCeilDiv1000 (now + (W : Int) * 1000 - now))
        else .next) := by
  simp only [rateLimitStep, if_pos h]
  norm_num
  split_ifs <;> rfl

theorem runCalls_count (M W : Nat) :
    ∀ (ts : List Int) (r₀ : RateRecord),
      (∀ t ∈ ts, t ≤ r₀.resetTime) →
      (runCalls M W (some r₀) ts).1 =
        some ⟨r₀.count + ts.length, r₀.resetTime⟩ := by
  intro ts
  induction ts with
  | nil => intro r₀ _; simp [runCalls]
  | cons t ts ih =>
    intro r₀ hts
    have ht : t ≤ r₀.resetTime := hts t (by simp)
    simp only [runCalls, rateLimitStep_active M W r₀ t (by omega)]
    have := ih ⟨r₀.count + 1, r₀.resetTime⟩
      (by intro t' ht'; exact hts t' (by simp [ht']))
    simp only [this]
    congr 2
    simp
    omega

/-- C3 (amended): within one active window (`now ≤ windowResetAt`) each
call increments the stored count, the maxRequests-th call is admitted
and the (maxRequests+1)-th is rejected with HTTP 429 and
`retryAfter = ceil((windowResetAt - now)/1000)`, which is nonnegative
and strictly positive whenever `now < windowResetAt` (at the boundary
instant `now = windowResetAt` the window has not yet expired and the
rejection carries `retryAfter = 0`); when no record exists or the
record's window has expired, a fresh record with count 1 is created and
— provided `maxRequests ≥ 1` — the call is admitted; calls within one
active window are counted exactly. -/
theorem claim3_rate_window (M W : Nat) (r : RateRecord) (now : Int) :
    (now ≤ r.resetTime →
      rateLimitStep (some r) now M W =
        (⟨r.count + 1, r.resetTime⟩,
          if r.count + 1 > M then
            .reject 429 (jsCeilDiv1000 (r.resetTime - now)) else .next))
    ∧ (r.count + 1 = M → now ≤ r.resetTime →
        (rateLimitStep (some r) now M W).2 = .next)
    ∧ (r.count = M → now ≤ r.resetTime →
        (rateLimitStep (some r) now M W).2 =
          .reject 429 (jsCeilDiv1000 (r.resetTime - now))
        ∧ 0 ≤ jsCeilDiv1000 (r.resetTime - now)
        ∧ (now < r.resetTime → 0 < jsCeilDiv1000 (r.resetTime - now)))
    ∧ (1 ≤ M →
        rateLimitStep none now M W = (⟨1, now + (W : Int) * 1000⟩, .next))
    ∧ (∀ r' : RateRecord, r'.resetTime < now → 1 ≤ M →
        rateLimitStep (some r') now M W =
          (⟨1, now + (W : Int) * 1000⟩, .next))
    ∧ (∀ (ts : List Int) (r₀ : RateRecord),
        (∀ t ∈ ts, t ≤ r₀.resetTime) →
        (runCalls M W (some r₀) ts).1 =
          some ⟨r₀.count + ts.length, r₀.resetTime⟩) := by
  refine ⟨fun h => rateLimitStep_active M W r now (by omega),
    ?_, ?_, ?_, ?_, runCalls_count M W⟩
  · intro hM h
    rw [rateLimitStep_active M W r now (by omega)]
    simp only []
    rw [if_neg (by omega)]
  · intro hM h
    rw [rateLimitStep_active M W r now (by omega)]
    refine ⟨by rw [if_pos (by omega)], jsCeilDiv1000_nonneg (by omega), ?_⟩
    intro hlt
    exact jsCeilDiv1000_pos (by omega)
  · intro hM
    rw [rateLimitStep_fresh M W now]
    rw [if_neg (by omega)]
  · intro r' hexp hM
    rw [rateLimitStep_expired M W r' now hexp]
    rw [if_neg (by omega)]

/-- C3 counterexample: the claim as stated fails at two concrete
boundary inputs.  First, at the instant `now = windowResetAt` the window
has not yet expired (expiry requires `resetTime < now`), so the
(maxRequests+1)-th call is rejected — but with `retryAfter = 0`, not
`> 0` as claimed.  Second, with `maxRequests = 0` a call on a fresh key
creates the record with count 1 but is rejected, not admitted. -/
theorem claim3_counterexample :
    rateLimitStep (some ⟨2, 60000⟩) 60000 2 60 =
      (⟨3, 60000⟩, .reject 429 0)
    ∧ rateLimitStep none 0 0 60 = (⟨1, 60000⟩, .reject 429 60) := by
  constructor <;> rfl

theorem claim3_witness :
    (rateLimitStep (some ⟨4, 300000⟩) 200000 5 300).2 = .next
    ∧ (rateLimitStep (some ⟨5, 300000⟩) 200000 5 300).2 =
        .reject 429 100
    ∧ rateLimitStep none 0 5 300 = (⟨1, 300000⟩, .next) := by
  refine ⟨(claim3_rate_window 5 300 ⟨4, 300000⟩ 200000).2.1 rfl (by norm_num),
    ?_, (claim3_rate_window 5 300 ⟨4, 300000⟩ 0).2.2.2.1 (by norm_num)⟩
  have h := ((claim3_rate_window 5 300 ⟨5, 300000⟩ 200000).2.2.1 rfl
    (by norm_num)).1
  rw [h]
  rfl

theorem rateLimitStep_resetTime_mono (M W : Nat) (r : RateRecord)
    (now : Int) :
    r.resetTime ≤ (rateLimitStep (some r) now M W).1.resetTime := by
  by_cases h : r.resetTime < now
  · rw [rateLimitStep_expired M W r now h]
    split_ifs <;> simp <;> omega
  · rw [rateLimitStep_active M W r now h]

/-- C9: rejection happens exactly when the stored count has been pushed
above maxRequests, and the stored windowResetAt is monotonically
non-decreasing — unchanged while the window is active, and replaced by a
strictly later time after expiry — across every sequence of calls. -/
theorem claim9_rate_invariants (M W : Nat) (store : Option RateRecord)
    (now : Int) :
    ((rateLimitStep store now M W).1.count > M ↔
      (rateLimitStep store now M W).2 =
        .reject 429
          (jsCeilDiv1000 ((rateLimitStep store now M W).1.resetTime - now)))
    ∧ (∀ r : RateRecord, store = some r →
        r.resetTime ≤ (rateLimitStep store now M W).1.resetTime)
    ∧ (∀ r : RateRecord, store = some r → r.resetTime < now →
        r.resetTime < (rateLimitStep store now M W).1.resetTime)
    ∧ (∀ r : RateRecord, store = some r → now ≤ r.resetTime →
        (rateLimitStep store now M W).1.resetTime = r.resetTime)
    ∧ (∀ (ts : List Int) (r r' : RateRecord),
        (runCalls M W (some r) ts).1 = some r' →
        r.resetTime ≤ r'.resetTime) := by
  refine ⟨?_, ?_, ?_, ?_, ?_⟩
  · match store with
    | none =>
      rw [rateLimitStep_fresh M W now]
      split_ifs with h <;> simp <;> omega
    | some r =>
      by_cases h : r.resetTime < now
      · rw [rateLimitStep_expired M W r now h]
        split_ifs with h1 <;> simp <;> omega
      · rw [rateLimitStep_active M W r now h]
        split_ifs with h1 <;> simp <;> omega
  · intro r hr
    subst hr
    exact rateLimitStep_resetTime_mono M W r now
  · intro r hr hexp
    subst hr
    rw [rateLimitStep_expired M W r now hexp]
    split_ifs <;> simp <;> omega
  · intro r hr hact
    subst hr
    rw [rateLimitStep_active M W r now (by omega)]
  · intro ts
    induction ts with
    | nil =>
      intro r r' h
      simp only [runCalls] at h
      injection h with h
      simp [h]
    | cons t ts ih =>
      intro r r' h
      simp only [runCalls] at h
      have h1 := rateLimitStep_resetTime_mono M W r t
      exact le_trans h1 (ih _ _ h)

theorem claim9_witness :
    ((rateLimitStep (some ⟨3, 1000⟩) 500 3 60).1.count > 3 ↔
      (rateLimitStep (some ⟨3, 1000⟩) 500 3 60).2 =
        .reject 429
          (jsCeilDiv1000
            ((rateLimitStep (some ⟨3, 1000⟩) 500 3 60).1.resetTime - 500)))
    ∧ (1000 : Int) ≤ (rateLimitStep (some ⟨3, 1000⟩) 500 3 60).1.resetTime :=
  ⟨(claim9_rate_invariants 3 60 (some ⟨3, 1000⟩) 500).1,
    (claim9_rate_invariants 3 60 (some ⟨3, 1000⟩) 500).2.1 ⟨3, 1000⟩ rfl⟩

theorem chunksAux_join {α : Type} :
    ∀ (l : List α) (cap : Nat) (cur : List α),
      (chunksAux cap cur l).join = cur.reverse ++ l := by
  intro l
  induction l with
  | nil =>
    intro cap cur
    cases cur <;> simp [chunksAux]
  | cons a rest ih =>
    intro cap cur
    match cap with
    | 0 => simp [chunksAux, ih]
    | m + 1 => simp [chunksAux, ih]

theorem chunksAux_length_le {α : Type} :
    ∀ (l : List α) (cap : Nat) (cur : List α),
      cur.length + cap = GOOGLE_API_BATCH_SIZE →
      ∀ b ∈ chunksAux cap cur l, b.length ≤ GOOGLE_API_BATCH_SIZE := by
  intro l
  induction l with
  | nil =>
    intro cap cur hcap b hb
    cases cur with
    | nil => simp [chunksAux] at hb
    | cons x xs =>
      simp [chunksAux] at hb
      subst hb
      simp at hcap ⊢
      omega
  | cons a rest ih =>
    intro cap cur hcap b hb
    match cap with
    | 0 =>
      simp only [chunksAux] at hb
      rcases List.mem_cons.mp hb with h | h
      · subst h
        simp
        omega
      · exact ih (GOOGLE_API_BATCH_SIZE - 1) [a] (by simp [GOOGLE_API_BATCH_SIZE]) b h
    | m + 1 =>
      exact ih m (a :: cur) (by simp at hcap ⊢; omega) b hb

theorem chunksAux_lengths {α : Type} :
    ∀ (l : List α) (cap : Nat) (cur : List α),
      (chunksAux cap cur l).map List.length =
        lengthChunksAux cap cur.length l.length := by
  intro l
  induction l with
  | nil =>
    intro cap cur
    cases cur <;> simp [chunksAux, lengthChunksAux]
  | cons a rest ih =>
    intro cap cur
    match cap with
    | 0 => simp [chunksAux, lengthChunksAux, ih]
    | m + 1 =>
      simp only [chunksAux, List.length_cons, lengthChunksAux]
      rw [ih m (a :: cur)]
      simp

theorem sliceChunks_join {α : Type} (l : List α) :
    (sliceChunks l).join = l := by
  simpa using chunksAux_join l GOOGLE_API_BATCH_SIZE []

theorem sliceChunks_le {α : Type} (l : List α) :
    ∀ b ∈ sliceChunks l, b.length ≤ GOOGLE_API_BATCH_SIZE :=
  chunksAux_length_le l GOOGLE_API_BATCH_SIZE [] (by simp)

theorem sliceChunks_250 {α : Type} (l : List α) (h : l.length = 250) :
    (sliceChunks l).map List.length = [100, 100, 50] := by
  have := chunksAux_lengths l GOOGLE_API_BATCH_SIZE []
  rw [sliceChunks, this, h]
  simp only [List.length_nil]
  decide

theorem runBatchesAux_submitted (bf : Nat → Bool) :
    ∀ (bs : List (List SlideRequest)) (i : Nat),
      (runBatchesAux bf i bs).2.2 = bs := by
  intro bs
  induction bs with
  | nil => intro i; rfl
  | cons b rest ih =>
    intro i
    simp only [runBatchesAux]
    split_ifs <;> simp [ih]

theorem runBatchesAux_warnings (bf : Nat → Bool) :
    ∀ (bs : List (List SlideRequest)) (i : Nat),
      (runBatchesAux bf i bs).2.1 =
        ((List.range' i bs.length).filter bf).map
          (fun j => "Batch " ++ toString j ++ " failed") := by
  intro bs
  induction bs with
  | nil => intro i; rfl
  | cons b rest ih =>
    intro i
    simp only [runBatchesAux, List.length_cons, List.range'_succ,
      List.filter_cons]
    split_ifs with h <;> simp [h, ih]

theorem compileSlidesAux_failed (t : Option ColorTheme) :
    ∀ (l : List SlideContent) (i : Nat),
      (compileSlidesAux t i l).2.1 = [] := by
  intro l
  induction l with
  | nil => intro i; rfl
  | cons c rest ih => intro i; simp [compileSlidesAux, ih]

theorem compileSlidesAux_warnings (t : Option ColorTheme) :
    ∀ (l : List SlideContent) (i : Nat),
      (compileSlidesAux t i l).2.2 = [] := by
  intro l
  induction l with
  | nil => intro i; rfl
  | cons c rest ih => intro i; simp [compileSlidesAux, ih]

theorem compileSlides_failed (l : List SlideContent)
    (t : Option ColorTheme) : (compileSlides l t).2.1 = [] :=
  compileSlidesAux_failed t l 0

theorem compileSlides_warnings (l : List SlideContent)
    (t : Option ColorTheme) : (compileSlides l t).2.2 = [] :=
  compileSlidesAux_warnings t l 0

theorem notesWarningsAux_nofail :
    ∀ (l : List SlideContent) (i : Nat),
      notesWarningsAux (fun _ => false) i l = [] := by
  intro l
  induction l with
  | nil => intro i; rfl
  | cons c rest ih => intro i; simp [notesWarningsAux, ih]

/-- Unfolded form of the embedded addSlidesToPresentation: the batch-size
validation always succeeds, per-slide compilation never fails, so the
outcome is fully determined by the sanitized slides, the batch-failure
pattern and the notes-failure pattern. -/
theorem addSlides_eq (slides : List SlideContent) (a : Bool)
    (t : Option ColorTheme) (f : Option String) (bf nf : Nat → Bool) :
    addSlidesToPresentation slides a t f bf nf = .ok {
      successCount := (validateSlideImages slides a).length,
      failedSlides := [],
      warnings :=
        (runBatches
          (sliceChunks ((match f with
            | some oid => [SlideRequest.deleteObject oid]
            | none => []) ++
            (compileSlides (validateSlideImages slides a) t).1)) bf).2.1
        ++ notesWarnings (validateSlideImages slides a) nf } := by
  unfold addSlidesToPresentation
  rw [validateSlideContent_ok]
  show Except.ok _ = _
  rw [compileSlides_failed, compileSlides_warnings]
  simp

/-- C6: the compiled operation list is partitioned into consecutive
batches of at most GOOGLE_API_BATCH_SIZE = 100 operations whose
concatenation is the original list (250 operations give exactly 3
batches of sizes 100, 100, 50); every batch is submitted, in order,
regardless of earlier failures; each failing batch contributes exactly
one warning keyed by its batch index; and the run always returns an
outcome instead of aborting. -/
theorem claim6_batching (ops : List SlideRequest) (bf : Nat → Bool) :
    (∀ b ∈ sliceChunks ops, b.length ≤ GOOGLE_API_BATCH_SIZE)
    ∧ (sliceChunks ops).join = ops
    ∧ (ops.length = 250 → (sliceChunks ops).map List.length = [100, 100, 50])
    ∧ (runBatches (sliceChunks ops) bf).2.2 = sliceChunks ops
    ∧ (runBatches (sliceChunks ops) bf).2.1 =
        ((List.range' 0 (sliceChunks ops).length).filter bf).map
          (fun j => "Batch " ++ toString j ++ " failed")
    ∧ (∀ (slides : List SlideContent) (a : Bool) (t : Option ColorTheme)
        (f : Option String) (nf : Nat → Bool), ∃ o,
        addSlidesToPresentation slides a t f bf nf = .ok o) :=
  ⟨sliceChunks_le ops, sliceChunks_join ops, sliceChunks_250 ops,
    runBatchesAux_submitted bf (sliceChunks ops) 0,
    runBatchesAux_warnings bf (sliceChunks ops) 0,
    fun slides a t f nf => ⟨_, addSlides_eq slides a t f bf nf⟩⟩

theorem claim6_witness :
    (sliceChunks (List.replicate 250 (SlideRequest.deleteObject "x"))).map
        List.length = [100, 100, 50]
    ∧ (runBatches
        (sliceChunks (List.replicate 250 (SlideRequest.deleteObject "x")))
        (fun j => j == 1)).2.1 = ["Batch 1 failed"] := by
  have h1 := (claim6_batching
    (List.replicate 250 (SlideRequest.deleteObject "x"))
    (fun j => j == 1)).2.2.1 (by rw [List.length_replicate])
  refine ⟨h1, ?_⟩
  have h3 : (sliceChunks
      (List.replicate 250 (SlideRequest.deleteObject "x"))).length = 3 := by
    calc (sliceChunks
        (List.replicate 250 (SlideRequest.deleteObject "x"))).length
        = ((sliceChunks
            (List.replicate 250 (SlideRequest.deleteObject "x"))).map
              List.length).length := (List.length_map _ _).symm
      _ = 3 := by rw [h1]; rfl
  rw [(claim6_batching (List.replicate 250 (SlideRequest.deleteObject "x"))
    (fun j => j == 1)).2.2.2.2.1, h3]
  rfl

/-- C8: a speaker-notes failure pattern changes neither the returned
successCount nor failedSlides relative to the run in which no notes
insertion fails (whose notes stage appends nothing, so those are the
values before the notes step); its only effect on the outcome is
appending the notes warnings. -/
theorem claim8_notes_frame (slides : List SlideContent) (a : Bool)
    (t : Option ColorTheme) (f : Option String) (bf nf : Nat → Bool) :
    ∃ o b, addSlidesToPresentation slides a t f bf nf = .ok o
      ∧ addSlidesToPresentation slides a t f bf (fun _ => false) = .ok b
      ∧ o.successCount = b.successCount
      ∧ o.failedSlides = b.failedSlides
      ∧ o.warnings = b.warnings ++
          notesWarnings (validateSlideImages slides a) nf := by
  refine ⟨_, _, addSlides_eq slides a t f bf nf,
    addSlides_eq slides a t f bf (fun _ => false), rfl, rfl, ?_⟩
  simp [notesWarnings, notesWarningsAux_nofail]

theorem validateImageUrl_error_truthy {u : Option String} {a : Bool}
    {e : PresError} (h : validateImageUrl u a = .error e) :
    strTruthy u = true := by
  match u with
  | none => simp [validateImageUrl] at h
  | some s =>
    by_cases hs : s = ""
    · subst hs
      have hok : validateImageUrl (some "") a = .ok none := rfl
      rw [hok] at h
      cases h
    · simp [strTruthy, hs]

theorem set_get_self {α : Type} :
    ∀ (l : List α) (i : Nat) (a : α), l.get? i = some a → l.set i a = l := by
  intro l
  induction l with
  | nil => intro i a h; simp at h
  | cons x xs ih =>
    intro i a h
    cases i with
    | zero =>
      simp at h
      simp [h]
    | succ j =>
      rw [List.get?_cons_succ] at h
      simp [ih j a h]

theorem validateSlideImages_map (slides : List SlideContent) (a : Bool) :
    validateSlideImages slides a =
      slides.map (sanitizeSlideImage a) := rfl

/-- C4 (amended): a slide whose image URL fails validation survives
without its image — the sanitized list keeps the slide with `imageUrl`
removed — and the submission is not aborted; but the removal leaves the
run's outcome exactly as if the image had never been present: in
particular no warning about the removal appears in the returned
warnings list (the source only logs it to the console). -/
theorem claim4_image_soft_fail (slides : List SlideContent) (i : Nat)
    (s : SlideContent) (a : Bool) (e : PresError) (t : Option ColorTheme)
    (f : Option String) (bf nf : Nat → Bool)
    (hget : slides.get? i = some s)
    (herr : validateImageUrl s.imageUrl a = .error e) :
    (validateSlideImages slides a).get? i =
      some { s with imageUrl := none }
    ∧ addSlidesToPresentation slides a t f bf nf =
        addSlidesToPresentation (slides.set i { s with imageUrl := none })
          a t f bf nf
    ∧ ∃ o, addSlidesToPresentation slides a t f bf nf = .ok o := by
  have htr : strTruthy s.imageUrl = true := validateImageUrl_error_truthy herr
  have hf : sanitizeSlideImage a s = { s with imageUrl := none } := by
    unfold sanitizeSlideImage
    rw [htr, herr]
    simp
  have hmem : (validateSlideImages slides a).get? i =
      some { s with imageUrl := none } := by
    rw [validateSlideImages_map, List.get?_map, hget, Option.map_some', hf]
  have hfix : sanitizeSlideImage a { s with imageUrl := none } =
      { s with imageUrl := none } := by
    unfold sanitizeSlideImage
    simp [strTruthy]
  have hvimg : validateSlideImages (slides.set i { s with imageUrl := none })
      a = validateSlideImages slides a := by
    rw [validateSlideImages_map, validateSlideImages_map, List.map_set, hfix]
    exact set_get_self _ i _
      (by rw [List.get?_map, hget, Option.map_some', hf])
  refine ⟨hmem, ?_, ⟨_, addSlides_eq slides a t f bf nf⟩⟩
  rw [addSlides_eq, addSlides_eq, hvimg]

/-- C4 counterexample: a concrete run with an invalid image URL keeps
the slide (the image is removed) but returns an empty warnings list —
no warning describing the removal reaches the caller, contradicting the
claim's second half. -/
theorem claim4_counterexample :
    validateSlideImages
        [{ type := .content, title := some "T", text := some "body",
           imageUrl := some "notaurl" }] false =
      [{ type := .content, title := some "T", text := some "body",
         imageUrl := none }]
    ∧ addSlidesToPresentation
        [{ type := .content, title := some "T", text := some "body",
           imageUrl := some "notaurl" }] false none (some "p")
        (fun _ => false) (fun _ => false) =
      .ok { successCount := 1, failedSlides := [], warnings := [] } := by
  constructor <;> rfl

theorem claim4_witness :
    (validateSlideImages
        [{ type := .content, title := some "T", text := some "body",
           imageUrl := some "notaurl" }] false).get? 0 =
      some { type := .content, title := some "T", text := some "body",
             imageUrl := none }
    ∧ addSlidesToPresentation
        [{ type := .content, title := some "T", text := some "body",
           imageUrl := some "notaurl" }] false none (some "p")
        (fun _ => false) (fun _ => false) =
      addSlidesToPresentation
        [{ type := .content, title := some "T", text := some "body",
           imageUrl := none }] false none (some "p")
        (fun _ => false) (fun _ => false) :=
  ⟨(claim4_image_soft_fail
      [{ type := .content, title := some "T", text := some "body",
         imageUrl := some "notaurl" }] 0
      { type := .content, title := some "T", text := some "body",
        imageUrl := some "notaurl" } false
      (.invalidImageUrl "notaurl") none (some "p")
      (fun _ => false) (fun _ => false) (by rfl) (by rfl)).1,
    (claim4_image_soft_fail
      [{ type := .content, title := some "T", text := some "body",
         imageUrl := some "notaurl" }] 0
      { type := .content, title := some "T", text := some "body",
        imageUrl := some "notaurl" } false
      (.invalidImageUrl "notaurl") none (some "p")
      (fun _ => false) (fun _ => false) (by rfl) (by rfl)).2.1⟩

/-- The object ids of the compiled requests of one slide are exactly
the ids determined by the slide index and the present field kinds. -/
theorem createSlideRequests_ids (c : SlideContent) (i : Nat)
    (theme : Option ColorTheme) :
    (createSlideRequests c i theme).filterMap reqObjectId =
      idsFromIndexAndKind i (strTruthy c.title) (strTruthy c.subtitle)
        (strTruthy c.text) (listTruthy c.bulletPoints)
        (listTruthy c.questions) := by
  unfold createSlideRequests idsFromIndexAndKind rep3
  cases ht : strTruthy c.title <;>
    cases hst : strTruthy c.subtitle <;>
      cases htx : strTruthy c.text <;>
        cases hbl : listTruthy c.bulletPoints <;>
          cases hq : listTruthy c.questions <;>
            cases him : strTruthy c.imageUrl <;>
              simp [List.filterMap_append, reqObjectId]

/-- C7: compilation is deterministic — the embedded compiler is a pure
function, so the same slide content, index and theme always produce the
identical operation sequence — and the caller-assigned object ids are
derived only from the slide index and the kinds of the present fields
(slide_i, title_i, subtitle_i, text_i, bullets_i, questions_i; the
image operation carries no id), independent of the field values and of
the theme. -/
theorem claim7_compile_deterministic (c : SlideContent) (i : Nat)
    (theme : Option ColorTheme) :
    createSlideRequests c i theme = createSlideRequests c i theme
    ∧ (createSlideRequests c i theme).filterMap reqObjectId =
        idsFromIndexAndKind i (strTruthy c.title) (strTruthy c.subtitle)
          (strTruthy c.text) (listTruthy c.bulletPoints)
          (listTruthy c.questions)
    ∧ (∀ (c' : SlideContent) (theme' : Option ColorTheme),
        strTruthy c'.title = strTruthy c.title →
        strTruthy c'.subtitle = strTruthy c.subtitle →
        strTruthy c'.text = strTruthy c.text →
        listTruthy c'.bulletPoints = listTruthy c.bulletPoints →
        listTruthy c'.questions = listTruthy c.questions →
        (createSlideRequests c' i theme').filterMap reqObjectId =
          (createSlideRequests c i theme).filterMap reqObjectId) := by
  refine ⟨rfl, createSlideRequests_ids c i theme, ?_⟩
  intro c' theme' h1 h2 h3 h4 h5
  rw [createSlideRequests_ids, createSlideRequests_ids, h1, h2, h3, h4, h5]

theorem claim7_witness :
    (createSlideRequests
        { type := .content, title := some "A", text := some "b",
          imageUrl := some "https://images.unsplash.com/a.png" } 4
        (some .blue)).filterMap reqObjectId = (createSlideRequests
        { type := .content, title := some "Other", text := some "words" } 4
        none).filterMap reqObjectId :=
  (claim7_compile_deterministic
    { type := .content, title := some "Other", text := some "words" } 4
    none).2.2
    { type := .content, title := some "A", text := some "b",
      imageUrl := some "https://images.unsplash.com/a.png" }
    (some .blue) rfl rfl rfl rfl rfl

theorem splitAtColon_append :
    ∀ (a b : List Char), ':' ∉ a →
      splitAtColon (a ++ ':' :: b) = some (a, b) := by
  intro a
  induction a with
  | nil => intro b _; simp [splitAtColon]
  | cons c a' ih =>
    intro b hmem
    have hc : ¬ c = ':' := fun h => hmem (by simp [h])
    simp only [List.cons_append, splitAtColon, if_neg hc, List.append_eq,
      ih b (fun h => hmem (by simp [h]))]
    rfl

theorem takeWhile_append_all {α : Type} (p : α → Bool) :
    ∀ (xs ys : List α), (∀ x ∈ xs, p x = true) →
      (xs ++ ys).takeWhile p = xs ++ ys.takeWhile p := by
  intro xs
  induction xs with
  | nil => intro ys _; simp
  | cons x xs ih =>
    intro ys h
    have hx : p x = true := h x (by simp)
    simp only [List.cons_append, List.takeWhile_cons_of_pos hx]
    rw [ih ys (fun y hy => h y (by simp [hy]))]

theorem dropWhile_append_all {α : Type} (p : α → Bool) :
    ∀ (xs ys : List α), (∀ x ∈ xs, p x = true) →
      (xs ++ ys).dropWhile p = ys.dropWhile p := by
  intro xs
  induction xs with
  | nil => intro ys _; simp
  | cons x xs ih =>
    intro ys h
    have hx : p x = true := h x (by simp)
    simp only [List.cons_append, List.dropWhile_cons_of_pos hx]
    exact ih ys (fun y hy => h y (by simp [hy]))

/-- Structural facts about every successful parse: nonempty
all-lowercase scheme, nonempty slash-free host, slash-headed path. -/
theorem parseUrlChars_spec {l : List Char} {u : UrlParts}
    (h : parseUrlChars l = some u) :
    u.scheme ≠ [] ∧ u.scheme.all isLowerAlpha = true
    ∧ u.host ≠ [] ∧ (∀ c ∈ u.host, (c ≠ '/' : Bool) = true)
    ∧ ∃ p', u.path = '/' :: p' := by
  unfold parseUrlChars at h
  split at h
  · exact absurd h (by simp)
  case _ scheme rest hsplit =>
    split at h
    · exact absurd h (by simp)
    case _ hcond =>
      split at h
      case _ afterSlashes =>
        split at h
        · exact absurd h (by simp)
        case _ hhost =>
          have hu : u = ⟨scheme,
              afterSlashes.takeWhile (fun c => c ≠ '/'),
              if afterSlashes.dropWhile (fun c => c ≠ '/') = [] then ['/']
              else afterSlashes.dropWhile (fun c => c ≠ '/')⟩ := by
            injection h with h'
            exact h'.symm
          subst hu
          simp only [Bool.or_eq_true, Bool.not_eq_true', not_or,
            decide_eq_true_eq, Bool.not_eq_false] at hcond
          refine ⟨hcond.1, hcond.2, hhost, ?_, ?_⟩
          · intro c hc
            simpa using List.mem_takeWhile_imp hc
          · simp only []
            split
            · exact ⟨[], rfl⟩
            case _ hne =>
              match hdw : afterSlashes.dropWhile (fun c => c ≠ '/') with
              | [] => exact absurd hdw hne
              | d :: rest' =>
                have hd := List.head_dropWhile_not
                  (fun c => (c ≠ '/' : Bool)) afterSlashes
                  (by rw [hdw]; simp)
                simp only [hdw, List.head_cons] at hd
                have hd' : d = '/' := by simpa using hd
                exact ⟨rest', by rw [hd']⟩
      case _ => exact absurd h (by simp)

/-- Parsing the href of a well-formed URL recovers it exactly. -/
theorem parseUrlChars_href {u : UrlParts}
    (hs : u.scheme ≠ []) (hsl : u.scheme.all isLowerAlpha = true)
    (hh : u.host ≠ []) (hhs : ∀ c ∈ u.host, (c ≠ '/' : Bool) = true)
    (hp : ∃ p', u.path = '/' :: p') :
    parseUrlChars (hrefChars u) = some u := by
  obtain ⟨sch, host, path⟩ := u
  simp only at hs hsl hh hhs hp
  obtain ⟨p', hpeq⟩ := hp
  subst hpeq
  have hnc : ':' ∉ sch := by
    intro hm
    have := List.all_eq_true.mp hsl ':' hm
    simp [isLowerAlpha] at this
  have ht : (host ++ '/' :: p').takeWhile (fun c => (c ≠ '/' : Bool)) =
      host := by
    rw [takeWhile_append_all _ host _ hhs]
    simp
  have hd : (host ++ '/' :: p').dropWhile (fun c => (c ≠ '/' : Bool)) =
      '/' :: p' := by
    rw [dropWhile_append_all _ host _ hhs]
    simp
  unfold hrefChars parseUrlChars
  dsimp only
  rw [List.append_assoc]
  simp only [List.cons_append]
  rw [splitAtColon_append sch _ hnc]
  simp only [ht, hd]
  rw [if_neg (by simp [hs, hsl])]
  rw [if_neg (by simp [hh])]
  simp

theorem isUrlTrusted_href {u : UrlParts}
    (hs : u.scheme ≠ []) (hsl : u.scheme.all isLowerAlpha = true)
    (hh : u.host ≠ []) (hhs : ∀ c ∈ u.host, (c ≠ '/' : Bool) = true)
    (hp : ∃ p', u.path = '/' :: p') :
    isUrlTrusted (href u) = trustedHost u.host := by
  unfold isUrlTrusted parseUrl
  rw [show (href u).toList = hrefChars u from rfl]
  rw [parseUrlChars_href hs hsl hh hhs hp]

/-- Behavior of validateImageUrl on a trimmed input that parses. -/
theorem validateImageUrl_some (s : String) (a : Bool) (u : UrlParts)
    (htrim : jsTrim s = s) (hparse : parseUrl s = some u) :
    validateImageUrl (some s) a =
      if !(u.scheme = "http".toList || u.scheme = "https".toList) then
        .error (.invalidImageUrl s)
      else
        if !a && !isUrlTrusted (href (if u.scheme = "http".toList then
            { u with scheme := "https".toList } else u)) then
          .error (.untrustedImageDomain
            (href (if u.scheme = "http".toList then
              { u with scheme := "https".toList } else u)))
        else
          .ok (some (href (if u.scheme = "http".toList then
            { u with scheme := "https".toList } else u))) := by
  have hne : ¬ (s = "") := by
    intro h
    rw [h] at hparse
    exact absurd hparse (by intro hc; cases hc)
  simp only [validateImageUrl, htrim, if_neg hne, hparse]

/-- C5: validateImageUrl rejects non-http(s) schemes with
InvalidImageUrlError ("ftp://x/y" concretely, and every parsed URL whose
scheme is neither http nor https); upgrades http to https (so
"http://images.unsplash.com/a.png" yields
"https://images.unsplash.com/a.png", and every parsed http URL yields
the href with scheme https when accepted); and with allowUntrusted
false rejects every well-formed URL whose hostname fails the allow-list
check (equality with or subdomain of a trusted domain) with
UntrustedImageDomainError, while allowUntrusted = true accepts it. -/
theorem claim5_validate_image_url :
    validateImageUrl (some "ftp://x/y") false =
      .error (.invalidImageUrl "ftp://x/y")
    ∧ validateImageUrl (some "http://images.unsplash.com/a.png") false =
        .ok (some "https://images.unsplash.com/a.png")
    ∧ validateImageUrl (some "https://evil.example.com/a.png") false =
        .error (.untrustedImageDomain "https://evil.example.com/a.png")
    ∧ validateImageUrl (some "https://evil.example.com/a.png") true =
        .ok (some "https://evil.example.com/a.png")
    ∧ (∀ (s : String) (u : UrlParts) (a : Bool), jsTrim s = s →
        parseUrl s = some u → u.scheme ≠ "http".toList →
        u.scheme ≠ "https".toList →
        validateImageUrl (some s) a = .error (.invalidImageUrl s))
    ∧ (∀ (s : String) (u : UrlParts) (a : Bool), jsTrim s = s →
        parseUrl s = some u → u.scheme = "http".toList →
        (a = true ∨ trustedHost u.host = true) →
        validateImageUrl (some s) a =
          .ok (some (href ⟨"https".toList, u.host, u.path⟩)))
    ∧ (∀ (s : String) (u : UrlParts), jsTrim s = s →
        parseUrl s = some u → u.scheme = "https".toList →
        trustedHost u.host = false →
        validateImageUrl (some s) false =
          .error (.untrustedImageDomain (href u))
        ∧ validateImageUrl (some s) true = .ok (some (href u))) := by
  refine ⟨rfl, rfl, rfl, rfl, ?_, ?_, ?_⟩
  · intro s u a htrim hparse h1 h2
    rw [validateImageUrl_some s a u htrim hparse]
    rw [if_pos (by simp; exact ⟨by simpa using h1, by simpa using h2⟩)]
  · intro s u a htrim hparse hsch hacc
    obtain ⟨hs, hsl, hh, hhs, hp⟩ := parseUrlChars_spec hparse
    have hup : isUrlTrusted (href ⟨"https".toList, u.host, u.path⟩) =
        trustedHost u.host :=
      isUrlTrusted_href (by simp)
        (by exact (by decide : ("https".toList.all isLowerAlpha) = true))
        hh hhs hp
    rw [validateImageUrl_some s a u htrim hparse]
    rw [if_neg (by simp [hsch]), if_pos hsch]
    rcases hacc with ha | ht
    · subst ha
      rw [if_neg (by simp)]
    · rw [if_neg (by rw [hup, ht]; simp)]
  · intro s u htrim hparse hsch htrust
    obtain ⟨hs, hsl, hh, hhs, hp⟩ := parseUrlChars_spec hparse
    have hne : u.scheme ≠ "http".toList := by
      rw [hsch]
      decide
    have hup : isUrlTrusted (href u) = trustedHost u.host :=
      isUrlTrusted_href hs hsl hh hhs hp
    constructor
    · rw [validateImageUrl_some s false u htrim hparse]
      rw [if_neg (by simp [hsch]), if_neg hne]
      rw [if_pos (by rw [hup, htrust]; simp)]
    · rw [validateImageUrl_some s true u htrim hparse]
      rw [if_neg (by simp [hsch]), if_neg hne]
      rw [if_neg (by simp)]

theorem claim5_witness :
    validateImageUrl (some "gopher://host/a") false =
      .error (.invalidImageUrl "gopher://host/a")
    ∧ validateImageUrl (some "http://drive.google.com/f") true =
        .ok (some "https://drive.google.com/f")
    ∧ validateImageUrl (some "https://internal.example.org/i.png") false =
        .error
          (.untrustedImageDomain "https://internal.example.org/i.png") := by
  refine ⟨?_, ?_, ?_⟩
  · exact claim5_validate_image_url.2.2.2.2.1 "gopher://host/a"
      ⟨"gopher".toList, "host".toList, "/a".toList⟩ false rfl rfl
      (by decide) (by decide)
  · exact claim5_validate_image_url.2.2.2.2.2.1 "http://drive.google.com/f"
      ⟨"http".toList, "drive.google.com".toList, "/f".toList⟩ true rfl rfl
      rfl (Or.inl rfl)
  · exact (claim5_validate_image_url.2.2.2.2.2.2
      "https://internal.example.org/i.png"
      ⟨"https".toList, "internal.example.org".toList, "/i.png".toList⟩
      rfl rfl rfl (by decide)).1

theorem all_not_start_sbff :
    ∀ (acts : List SFAct),
      acts.all (fun a => !isStartAct a) = true →
      startsBeforeFirstFinish acts = true := by
  intro acts
  induction acts with
  | nil => intro _; rfl
  | cons a rest ih =>
    intro h
    rw [List.all_cons, Bool.and_eq_true] at h
    cases a with
    | finish => exact h.2
    | start i now => simp [isStartAct] at h
    | provider => exact ih h.2
    | persist => exact ih h.2
    | resume i => exact ih h.2
    | refetch i => exact ih h.2

theorem sfStep_preserves {oT : Nat} {oE t0 : Int} {nt : Nat → Nat}
    {ne : Nat → Int} {n : Nat} (hexp : oE ≤ t0 + REFRESH_MARGIN_MS)
    {s s' : SFCfg} {a : SFAct}
    (hstep : sfStep oT oE nt ne s a = some s')
    (hinv : SFInv oT oE t0 nt ne n s)
    (hstart : isStartAct a = true → s.finished = 0) :
    SFInv oT oE t0 nt ne n s'
    ∧ (s'.finished = s.finished ∨
        (a = SFAct.finish ∧ s'.finished = s.finished + 1)) := by
  obtain ⟨hclock, hfin, hpc, htf, hstore, hlen, hcallers⟩ := hinv
  cases a with
  | start i now =>
    simp only [sfStep] at hstep
    split at hstep
    · cases hstep
    case _ hnow =>
      split at hstep
      case _ hget =>
        have hfin0 : s.finished = 0 := hstart rfl
        have hneeds : needsTokenRefresh (some oE) now = true := by
          simp only [needsTokenRefresh, decide_eq_true_eq]
          omega
        rw [hneeds] at hstep
        simp only [if_true] at hstep
        split at hstep
        case _ ht =>
          injection hstep with hs'
          subst hs'
          refine ⟨⟨by simp; omega, by simpa using hfin, by simpa using hpc,
            by simpa using htf, by simpa using hstore, by simpa using hlen,
            ?_⟩, Or.inl rfl⟩
          intro c hc
          rcases List.mem_or_eq_of_mem_set hc with hmem | hset
          · exact hcallers c hmem
          · rw [hset, hfin0]
            exact Or.inr (Or.inl rfl)
        case _ ht =>
          injection hstep with hs'
          subst hs'
          refine ⟨⟨by simp; omega, by simpa using hfin, ?_,
            by simp [hfin0], ?_, by simpa using hlen, ?_⟩, Or.inl rfl⟩
          · simp only []
            rw [hfin0] at hpc ⊢
            simp [ht] at hpc
            simp [hpc]
          · simp only []
            rw [hfin0] at hstore ⊢
            simp [ht] at hstore
            simpa using hstore
          · intro c hc
            rcases List.mem_or_eq_of_mem_set hc with hmem | hset
            · exact hcallers c hmem
            · rw [hset, hfin0]
              exact Or.inr (Or.inl rfl)
      case _ hget => cases hstep
  | provider =>
    simp only [sfStep] at hstep
    split at hstep
    case _ hts =>
      injection hstep with hs'
      subst hs'
      have hfin0 : s.finished = 0 := htf (by rw [hts]; rfl)
      refine ⟨⟨by simpa using hclock, by simpa using hfin, ?_,
        by simp [hfin0], ?_,
        by simpa using hlen, by simpa using hcallers⟩, Or.inl rfl⟩
      · simp only []
        rw [hts] at hpc
        simpa using hpc
      · simp only []
        rw [hts] at hstore
        rw [hfin0] at hstore ⊢
        simpa using hstore
    case _ => cases hstep
  | persist =>
    simp only [sfStep] at hstep
    split at hstep
    case _ hts =>
      injection hstep with hs'
      subst hs'
      have hfin0 : s.finished = 0 := htf (by rw [hts]; rfl)
      refine ⟨⟨by simpa using hclock, by simpa using hfin, ?_,
        by simp [hfin0], by simp [hfin0], by simpa using hlen,
        by simpa using hcallers⟩, Or.inl rfl⟩
      simp only []
      rw [hts] at hpc
      simpa using hpc
    case _ => cases hstep
  | finish =>
    simp only [sfStep] at hstep
    split at hstep
    case _ hts =>
      injection hstep with hs'
      subst hs'
      have hfin0 : s.finished = 0 := htf (by rw [hts]; rfl)
      refine ⟨⟨by simpa using hclock, by simp [hfin0], ?_, by simp, ?_,
        by simpa using hlen, ?_⟩, Or.inr ⟨rfl, rfl⟩⟩
      · simp only []
        rw [hts] at hpc
        rw [hfin0] at hpc ⊢
        simpa using hpc
      · simp only []
        rw [hts, hfin0] at hstore
        simp at hstore
        simp [hstore, hfin0]
      · intro c hc
        simp only [] at hc
        rcases hcallers c hc with h | h | h | h
        · exact Or.inl h
        · exact Or.inr (Or.inl h)
        · rw [hfin0] at h
          cases h.2
        · rw [hfin0] at h
          cases h.2
    case _ => cases hstep
  | resume i =>
    simp only [sfStep] at hstep
    split at hstep
    case _ k hget =>
      split at hstep
      case _ hk =>
        injection hstep with hs'
        subst hs'
        have hfin1 : s.finished = 1 := by omega
        refine ⟨⟨by simpa using hclock, by simpa using hfin,
          by simpa using hpc, by simpa using htf, by simpa using hstore,
          by simpa using hlen, ?_⟩, Or.inl rfl⟩
        intro c hc
        rcases List.mem_or_eq_of_mem_set hc with hmem | hset
        · exact hcallers c hmem
        · rw [hset]
          exact Or.inr (Or.inr (Or.inl ⟨rfl, hfin1⟩))
      · cases hstep
    case _ => cases hstep
  | refetch i =>
    simp only [sfStep] at hstep
    split at hstep
    case _ hget =>
      injection hstep with hs'
      subst hs'
      have hmem : CallerPhase.refetch ∈ s.callers := List.get?_mem hget
      have hfin1 : s.finished = 1 := by
        rcases hcallers _ hmem with h | h | h | h
        · cases h
        · cases h
        · exact h.2
        · cases h.1
      have hst : s.storeToken = nt 0 := by
        rw [hfin1] at hstore
        simp at hstore
        exact hstore.1
      refine ⟨⟨by simpa using hclock, by simpa using hfin,
        by simpa using hpc, by simpa using htf, by simpa using hstore,
        by simpa using hlen, ?_⟩, Or.inl rfl⟩
      intro c hc
      rcases List.mem_or_eq_of_mem_set hc with hmem' | hset
      · exact hcallers c hmem'
      · rw [hset, hst]
        exact Or.inr (Or.inr (Or.inr ⟨rfl, hfin1⟩))
    case _ => cases hstep

theorem sfRun_inv {oT : Nat} {oE t0 : Int} {nt : Nat → Nat}
    {ne : Nat → Int} {n : Nat} (hexp : oE ≤ t0 + REFRESH_MARGIN_MS) :
    ∀ (acts : List SFAct) (s final : SFCfg),
      sfRun oT oE nt ne s acts = some final →
      SFInv oT oE t0 nt ne n s →
      (s.finished = 1 → acts.all (fun a => !isStartAct a) = true) →
      startsBeforeFirstFinish acts = true →
      SFInv oT oE t0 nt ne n final := by
  intro acts
  induction acts with
  | nil =>
    intro s final hrun hinv _ _
    simp only [sfRun] at hrun
    injection hrun with h
    rwa [← h]
  | cons a rest ih =>
    intro s final hrun hinv hside hsbff
    simp only [sfRun] at hrun
    cases hstep : sfStep oT oE nt ne s a with
    | none => rw [hstep] at hrun; cases hrun
    | some s' =>
      rw [hstep] at hrun
      have hstart : isStartAct a = true → s.finished = 0 := by
        intro hisa
        rcases Nat.lt_or_ge s.finished 1 with h1 | h1
        · omega
        · have hf1 : s.finished = 1 := le_antisymm hinv.2.1 h1
          have := hside hf1
          rw [List.all_cons, Bool.and_eq_true] at this
          rw [hisa] at this
          simp at this
      obtain ⟨hinv', hrel⟩ := sfStep_preserves hexp hstep hinv hstart
      have hrestall : s'.finished = 1 →
          rest.all (fun a => !isStartAct a) = true := by
        intro hf1'
        rcases hrel with heq | ⟨hafin, hsucc⟩
        · have := hside (by omega)
          rw [List.all_cons, Bool.and_eq_true] at this
          exact this.2
        · subst hafin
          simp only [startsBeforeFirstFinish] at hsbff
          exact hsbff
      have hsbff' : startsBeforeFirstFinish rest = true := by
        cases a with
        | finish =>
          simp only [startsBeforeFirstFinish] at hsbff
          exact all_not_start_sbff rest hsbff
        | start i now => exact hsbff
        | provider => exact hsbff
        | persist => exact hsbff
        | resume i => exact hsbff
        | refetch i => exact hsbff
      exact ih s' final hrun hinv' hrestall hsbff'

theorem sfInit_inv (oT : Nat) (oE t0 : Int) (nt : Nat → Nat)
    (ne : Nat → Int) (n : Nat) :
    SFInv oT oE t0 nt ne n (sfInit oT oE t0 n) := by
  refine ⟨le_refl t0, by simp [sfInit], by simp [sfInit], by simp [sfInit],
    by simp [sfInit], by simp [sfInit], ?_⟩
  intro c hc
  rw [sfInit] at hc
  simp only [] at hc
  rw [List.eq_of_mem_replicate hc]
  exact Or.inl rfl

/-- C1 (amended): under the source's cooperative scheduling, if every
caller of getOAuth2Client runs its synchronous prefix (the
needsTokenRefresh check and the refreshGoogleToken lock check) before
the first in-flight refresh settles, then the whole scenario performs
exactly one provider refresh call and every completed caller observes
the same refreshed credential.  The initial credential is expiring
within the 5-minute margin, and at most one refresh is ever in flight
(the lock slot holds at most one task by the get-then-set in one
synchronous block). -/
theorem claim1_single_flight (oT : Nat) (oE t0 : Int) (nt : Nat → Nat)
    (ne : Nat → Int) (n : Nat) (acts : List SFAct) (final : SFCfg)
    (hexp : oE ≤ t0 + REFRESH_MARGIN_MS) (hn : 0 < n)
    (hrun : sfRun oT oE nt ne (sfInit oT oE t0 n) acts = some final)
    (hsbff : startsBeforeFirstFinish acts = true)
    (hdone : ∀ c ∈ final.callers, ∃ tok, c = CallerPhase.done tok) :
    final.providerCalls = 1
    ∧ (∀ c ∈ final.callers, c = CallerPhase.done (nt 0)) := by
  have hinv := sfRun_inv hexp acts (sfInit oT oE t0 n) final hrun
    (sfInit_inv oT oE t0 nt ne n) (by intro h; cases h) hsbff
  obtain ⟨hclock, hfin, hpc, htf, hstore, hlen, hcallers⟩ := hinv
  have hne : final.callers ≠ [] := by
    intro h
    rw [h] at hlen
    simp at hlen
    omega
  obtain ⟨c0, hc0⟩ := List.exists_mem_of_ne_nil final.callers hne
  obtain ⟨tok0, htok0⟩ := hdone c0 hc0
  have hfin1 : final.finished = 1 := by
    rcases hcallers c0 hc0 with h | h | h | h
    · rw [htok0] at h; cases h
    · rw [htok0] at h; cases h
    · obtain ⟨h1, _⟩ := h
      rw [htok0] at h1
      cases h1
    · exact h.2
  have htask : final.task.isSome = false := by
    cases htask : final.task with
    | none => rfl
    | some p =>
      have := htf (by rw [htask]; rfl)
      omega
  constructor
  · rw [hpc, hfin1, htask]
    simp
  · intro c hc
    obtain ⟨tok, htok⟩ := hdone c hc
    rcases hcallers c hc with h | h | h | h
    · rw [htok] at h; cases h
    · rw [htok] at h; cases h
    · obtain ⟨h1, _⟩ := h
      rw [htok] at h1
      cases h1
    · exact h.1

/-- C1 counterexample: with two concurrent callers both holding the
expiring snapshot, the interleaving in which the second caller's
synchronous prefix runs after the first refresh has settled (while the
first caller is still awaiting its profile re-fetch, so the two calls
overlap) performs TWO provider refresh calls, and the callers observe
DIFFERENT credentials (tokens 100 and 101) — refuting "exactly one
underlying refresh call and all N callers observe the same refreshed
credential".  The mid-state after six actions shows both calls in
flight simultaneously with the second provider call already started. -/
theorem claim1_counterexample :
    sfRun 0 0 (fun k => 100 + k) (fun _ => 1000000000) (sfInit 0 0 0 2)
      [.start 0 0, .provider, .persist, .finish, .resume 0, .start 1 0,
       .refetch 0, .provider, .persist, .finish, .resume 1, .refetch 1] =
      some ⟨101, 1000000000, none, 2, 2,
        [CallerPhase.done 100, CallerPhase.done 101], 0⟩
    ∧ sfRun 0 0 (fun k => 100 + k) (fun _ => 1000000000) (sfInit 0 0 0 2)
        [.start 0 0, .provider, .persist, .finish, .resume 0,
         .start 1 0] =
      some ⟨100, 1000000000, some .awaitingProvider, 1, 2,
        [CallerPhase.refetch, CallerPhase.waitRefresh 1], 0⟩ := by
  constructor <;> rfl

theorem claim1_witness :
    sfRun 0 0 (fun _ => 7) (fun _ => 1000000000) (sfInit 0 0 0 1)
      [.start 0 0, .provider, .persist, .finish, .resume 0, .refetch 0] =
      some ⟨7, 1000000000, none, 1, 1, [CallerPhase.done 7], 0⟩
    ∧ (⟨7, 1000000000, none, 1, 1, [CallerPhase.done 7], 0⟩ :
        SFCfg).providerCalls = 1 :=
  ⟨rfl,
    (claim1_single_flight 0 0 0 (fun _ => 7) (fun _ => 1000000000) 1
      [.start 0 0, .provider, .persist, .finish, .resume 0, .refetch 0]
      ⟨7, 1000000000, none, 1, 1, [CallerPhase.done 7], 0⟩
      (by decide) (by decide) rfl rfl
      (by
        intro c hc
        rw [List.mem_singleton] at hc
        exact ⟨7, hc⟩)).1⟩

end ContentCreator
